import Mathlib

/-!
Verification model of the Addie desktop/mobile auth backend
(`src/apps/desktop/src-tauri/src/auth.rs` and `lib.rs`).

Strings are modelled as `List Char`.  External library behaviour that the
code relies on is modelled at the granularity the code observes it:

* `url::Url::parse` is modelled by `urlParse` for absolute URLs of the
  shape `scheme:...` / `scheme://authority/path?query#fragment` (no
  userinfo; ports are stripped from `host_str`; the scheme is
  ASCII-lowercased as the WHATWG parser does).  A string with no valid
  `scheme:` prefix is a parse error, as in the crate.
* `Url::query_pairs` is modelled by `queryPairs`:
  form-urlencoded decoding, splitting on `&`, key/value on the first `=`,
  `+` decoding to space and `%XY` to the byte it names (exact for
  single-byte sequences).
* `serde_json` round-tripping is modelled at the JSON-value level
  (`Json`), with `sessionToJson` / `sessionFromJson` reproducing the
  derived `Serialize`/`Deserialize` mapping of `UserSession`
  (an `Option` field serialises to `null` and deserialises from a
  missing field or `null` to `None`).
* The filesystem/keyring world is a record `World`: the content of the
  session dotfile, the keyring entry, and fault switches for the
  fallible syscalls (`fs::write`, `fs::read_to_string`,
  `fs::remove_file`, `keyring::Entry::new`).
-/

/-- Character strings, as lists of characters. -/
abbrev Str := List Char

/-- Coerce a Lean string literal to the model string type. -/
def str (s : String) : Str := s.data

/-- Split a string at the first occurrence of `c`; `none` when `c` is absent. -/
def splitFirst (c : Char) : Str → Option (Str × Str)
  | [] => none
  | x :: xs =>
    if x = c then some ([], xs)
    else (splitFirst c xs).map (fun p => (x :: p.1, p.2))

/-- Take the longest prefix on which `p` is false, returning it with the rest. -/
def spanUntil (p : Char → Bool) : Str → Str × Str
  | [] => ([], [])
  | x :: xs =>
    if p x then ([], x :: xs)
    else
      let r := spanUntil p xs
      (x :: r.1, r.2)

/-- Split a string on every occurrence of `c` (the separators are dropped). -/
def splitOnChar (c : Char) : Str → List Str
  | [] => [[]]
  | x :: xs =>
    if x = c then [] :: splitOnChar c xs
    else
      match splitOnChar c xs with
      | [] => [[x]]
      | y :: ys => (x :: y) :: ys

/-- Value of an ASCII hex digit. -/
def hexVal (c : Char) : Option Nat :=
  if '0' ≤ c ∧ c ≤ '9' then some (c.toNat - '0'.toNat)
  else if 'a' ≤ c ∧ c ≤ 'f' then some (c.toNat - 'a'.toNat + 10)
  else if 'A' ≤ c ∧ c ≤ 'F' then some (c.toNat - 'A'.toNat + 10)
  else none

/-- Form-urlencoded decoding as `Url::query_pairs` performs it:
`+` becomes a space, a valid `%XY` escape becomes the byte it names,
anything else is kept verbatim. -/
def formDecode : Str → Str
  | [] => []
  | '+' :: rest => ' ' :: formDecode rest
  | '%' :: h1 :: h2 :: rest =>
    match hexVal h1, hexVal h2 with
    | some a, some b => Char.ofNat (16 * a + b) :: formDecode rest
    | _, _ => '%' :: formDecode (h1 :: h2 :: rest)
  | c :: rest => c :: formDecode rest

/-- One form-urlencoded pair: an empty segment yields nothing, a segment
without `=` yields the decoded segment with an empty value. -/
def parsePair (s : Str) : Option (Str × Str) :=
  if s = [] then none
  else
    match splitFirst '=' s with
    | none => some (formDecode s, [])
    | some (k, v) => some (formDecode k, formDecode v)

/-- Model of `Url::query_pairs`: split the raw query on `&`, parse each
non-empty segment. -/
def queryPairs (q : Str) : List (Str × Str) :=
  (splitOnChar '&' q).filterMap parsePair

/-- Model of collecting `query_pairs()` into a `HashMap` and calling
`get`: on duplicate keys the last insertion wins. -/
def getParam (pairs : List (Str × Str)) (k : Str) : Option Str :=
  match pairs with
  | [] => none
  | (k', v) :: rest =>
    match getParam rest k with
    | some v' => some v'
    | none => if k' = k then some v else none

/-- Scheme characters after the first, per the URL standard. -/
def isSchemeChar (c : Char) : Bool :=
  c.isAlphanum || c = '+' || c = '-' || c = '.'

/-- A valid scheme: nonempty, ASCII alphabetic first character, then
scheme characters. -/
def schemeOk (s : Str) : Bool :=
  match s with
  | [] => false
  | c :: rest => c.isAlpha && rest.all isSchemeChar

/-- Result of `url::Url::parse` as the auth code observes it:
`scheme()`, `host_str()`, `path()` and the raw query. -/
structure ParsedUrl where
  scheme : Str
  host : Option Str
  path : Str
  query : Option Str
deriving DecidableEq, Repr

/-- Extract the optional query from what follows the path: everything
between `?` and the fragment. -/
def queryOf (rest : Str) : Option Str :=
  match rest with
  | '?' :: q => some (spanUntil (fun c => c = '#') q).1
  | _ => none

/-- Model of `url::Url::parse` on absolute URLs.  A string without a valid
`scheme:` prefix is the crate's `RelativeUrlWithoutBase` error.  After
`scheme://` the authority runs to the first `/`, `?` or `#`; a `:port`
suffix is stripped from `host_str`.  Without `//` the remainder is an
opaque path and `host_str` is `None`. -/
def urlParse (s : Str) : Except Str ParsedUrl :=
  match splitFirst ':' s with
  | none => .error (str "relative URL without a base")
  | some (sch, rest) =>
    if schemeOk sch then
      match rest with
      | '/' :: '/' :: rest2 =>
        let a := spanUntil (fun c => c = '/' || c = '?' || c = '#') rest2
        let host :=
          match splitFirst ':' a.1 with
          | some (h, _) => h
          | none => a.1
        let pq := spanUntil (fun c => c = '?' || c = '#') a.2
        .ok ⟨sch.map Char.toLower, some host, pq.1, queryOf pq.2⟩
      | _ =>
        let pq := spanUntil (fun c => c = '?' || c = '#') rest
        .ok ⟨sch.map Char.toLower, none, pq.1, queryOf pq.2⟩
    else .error (str "relative URL without a base")

/-- The session record of `lib.rs` (`UserSession`). -/
structure UserSession where
  sealed_session : Str
  user_id : Str
  email : Str
  first_name : Option Str
  last_name : Option Str
deriving DecidableEq, Repr

/-- JSON values, at the granularity `serde_json` is used here. -/
inductive Json where
  | null : Json
  | str : Str → Json
  | obj : List (Str × Json) → Json

/-- Serialisation of an `Option<String>` field: `None` is `null`. -/
def optToJson : Option Str → Json
  | none => .null
  | some s => .str s

/-- The derived `Serialize` for `UserSession`. -/
def sessionToJson (s : UserSession) : Json :=
  .obj [(str "sealed_session", .str s.sealed_session),
        (str "user_id", .str s.user_id),
        (str "email", .str s.email),
        (str "first_name", optToJson s.first_name),
        (str "last_name", optToJson s.last_name)]

/-- First-match field lookup in a JSON object. -/
def jLookup (fields : List (Str × Json)) (k : Str) : Option Json :=
  match fields with
  | [] => none
  | (k', v) :: rest => if k' = k then some v else jLookup rest k

/-- Deserialising a required `String` field: it must be present and a
string. -/
def getStrField (j : Option Json) : Option Str :=
  match j with
  | some (.str s) => some s
  | _ => none

/-- Deserialising an `Option<String>` field: absent or `null` is `None`. -/
def getOptStrField (j : Option Json) : Option (Option Str) :=
  match j with
  | none => some none
  | some .null => some none
  | some (.str s) => some (some s)
  | some (.obj _) => none

/-- The derived `Deserialize` for `UserSession`. -/
def sessionFromJson (j : Json) : Option UserSession :=
  match j with
  | .obj fields => do
    let ss ← getStrField (jLookup fields (str "sealed_session"))
    let uid ← getStrField (jLookup fields (str "user_id"))
    let em ← getStrField (jLookup fields (str "email"))
    let fn ← getOptStrField (jLookup fields (str "first_name"))
    let ln ← getOptStrField (jLookup fields (str "last_name"))
    pure ⟨ss, uid, em, fn, ln⟩
  | _ => none

/-- The world the auth module acts on: the session dotfile
(`~/.addie-session.json`, held as the JSON document it stores), the OS
keyring entry for the fixed service/account pair, and fault switches for
the fallible environment calls. -/
structure World where
  file : Option Json
  keyring : Option Str
  writeError : Option Str
  readError : Option Str
  removeError : Option Str
  keyringNewOk : Bool

/-- `save_session`: serialise the session and write it to the session
file; the keyring is not touched. -/
def save_session (s : UserSession) (w : World) : Except Str World :=
  match w.writeError with
  | some e => .error e
  | none => .ok { w with file := some (sessionToJson s) }

/-- `get_session`: when the session file exists, read and deserialise it;
otherwise report no session. -/
def get_session (w : World) : Except Str (Option UserSession) :=
  match w.file with
  | none => .ok none
  | some j =>
    match w.readError with
    | some e => .error e
    | none =>
      match sessionFromJson j with
      | some s => .ok (some s)
      | none => .error (str "invalid session JSON")

/-- `clear_session`: delete the keyring credential when the entry can be
constructed (its own failure is ignored), then remove the session file
when it exists. -/
def clear_session (w : World) : Except Str World :=
  let w1 := if w.keyringNewOk then { w with keyring := none } else w
  match w1.file with
  | none => .ok w1
  | some _ =>
    match w1.removeError with
    | some e => .error e
    | none => .ok { w1 with file := none }

/-- Events the handler emits to the frontend. -/
inductive Event where
  | authError (msg : Str)
  | authSuccess (payload : Json)

/-- The `auth-success` payload built by `handle_deep_link`. -/
def successPayload (uid em : Str) (fn ln : Option Str) : Json :=
  .obj [(str "user",
    .obj [(str "id", .str uid),
          (str "email", .str em),
          (str "first_name", optToJson fn),
          (str "last_name", optToJson ln)])]

/-- Outcome of `handle_deep_link`: the world afterwards, the emitted
events in order, and the returned `Result`. -/
structure DLResult where
  world : World
  events : List Event
  result : Except Str Unit

/-- The tail of `handle_deep_link` once the URL is known to be the auth
callback: extract the query parameters, build the session, save it and
notify the frontend. -/
def handleCallbackParams (params : List (Str × Str)) (w : World) : DLResult :=
  match getParam params (str "sealed_session") with
  | none => ⟨w, [], .error (str "Missing sealed_session")⟩
  | some ss =>
    match getParam params (str "user_id") with
    | none => ⟨w, [], .error (str "Missing user_id")⟩
    | some uid =>
      match getParam params (str "email") with
      | none => ⟨w, [], .error (str "Missing email")⟩
      | some em =>
        let fn := getParam params (str "first_name")
        let ln := getParam params (str "last_name")
        let session : UserSession := ⟨ss, uid, em, fn, ln⟩
        match save_session session w with
        | .error e =>
          ⟨w, [.authError (str "Failed to save session: " ++ e)],
            .error (str "Failed to save session: " ++ e)⟩
        | .ok w' => ⟨w', [.authSuccess (successPayload uid em fn ln)], .ok ()⟩

/-- `handle_deep_link` after URL parsing succeeded: ignore anything that
is not the `addie://auth/callback` URL, then process the query
parameters. -/
def handleDeepLinkParsed (p : ParsedUrl) (w : World) : DLResult :=
  if p.scheme ≠ str "addie" ∨ p.host ≠ some (str "auth") then ⟨w, [], .ok ()⟩
  else if p.path ≠ str "/callback" then ⟨w, [], .ok ()⟩
  else handleCallbackParams (queryPairs (p.query.getD [])) w

/-- `handle_deep_link`: parse the URL (propagating a parse error), ignore
anything that is not the auth callback, otherwise extract the query
parameters, build the session, save it and notify the frontend. -/
def handle_deep_link (url : Str) (w : World) : DLResult :=
  match urlParse url with
  | .error e => ⟨w, [], .error e⟩
  | .ok p => handleDeepLinkParsed p w

/-- `get_api_base_url`: the `ADDIE_API_URL` environment variable when
set, the production origin otherwise. -/
def get_api_base_url (env : Option Str) : Str :=
  env.getD (str "https://agenticadvertising.org")

/-- Model of `urlencoding::encode`: ASCII alphanumerics and `-`, `_`,
`.`, `~` pass through, every other character is percent-escaped with
uppercase hex digits. -/
def isUrlSafe (c : Char) : Bool :=
  c.isAlphanum || c = '-' || c = '_' || c = '.' || c = '~'

/-- Uppercase hex digit of a value below 16. -/
def hexDigit (n : Nat) : Char :=
  if n < 10 then Char.ofNat ('0'.toNat + n)
  else Char.ofNat ('A'.toNat + (n - 10))

/-- Percent-encode one character (ASCII range as used here). -/
def percentEncodeChar (c : Char) : Str :=
  ['%', hexDigit (c.toNat / 16 % 16), hexDigit (c.toNat % 16)]

/-- `urlencoding::encode` on the strings this code encodes. -/
def urlencodingEncode (s : Str) : Str :=
  s.flatMap (fun c => if isUrlSafe c then [c] else percentEncodeChar c)

/-- `start_oauth_flow`: the URL handed to the system browser opener,
built from the API base and the fixed redirect URI. -/
def start_oauth_flow (env : Option Str) : Str :=
  get_api_base_url env ++ str "/auth/login?native=true&redirect_uri="
    ++ urlencodingEncode (str "addie://auth/callback")

/-- Joins key/value pairs into a raw query string with `=` and `&`. -/
def joinQuery : List (Str × Str) → Str
  | [] => []
  | [(k, v)] => k ++ '=' :: v
  | (k, v) :: rest => k ++ '=' :: (v ++ '&' :: joinQuery rest)

/-- The query pairs of a callback URL: the three required parameters
followed by whichever optional name parameters are present. -/
def callbackPairs (es eu ee : Str) (fn ln : Option Str) : List (Str × Str) :=
  [(str "sealed_session", es), (str "user_id", eu), (str "email", ee)]
    ++ (fn.map (fun f => (str "first_name", f))).toList
    ++ (ln.map (fun l => (str "last_name", l))).toList

/-- A callback URL built from raw (still percent-encoded) parameter
values. -/
def callbackUrl (es eu ee : Str) (fn ln : Option Str) : Str :=
  str "addie://auth/callback?" ++ joinQuery (callbackPairs es eu ee fn ln)

/-- A raw query value that survives pair splitting intact: it contains no
pair separator and no fragment delimiter. -/
def tokOk (s : Str) : Prop := '&' ∉ s ∧ '#' ∉ s ∧ '=' ∉ s

/-- `tokOk` on an optional value. -/
def optTokOk : Option Str → Prop
  | none => True
  | some s => tokOk s

/-! ### Splitting lemmas -/

theorem splitFirst_of_not_mem (c : Char) (s : Str) (h : c ∉ s) :
    splitFirst c s = none := by
  induction s with
  | nil => rfl
  | cons x xs ih =>
    simp only [List.mem_cons, not_or] at h
    simp [splitFirst, Ne.symm h.1, ih h.2]

theorem splitFirst_append (c : Char) (s t : Str) (h : c ∉ s) :
    splitFirst c (s ++ c :: t) = some (s, t) := by
  induction s with
  | nil => simp [splitFirst]
  | cons x xs ih =>
    simp only [List.mem_cons, not_or] at h
    simp [splitFirst, Ne.symm h.1, ih h.2]

theorem spanUntil_of_not (p : Char → Bool) (s : Str) (h : ∀ x ∈ s, p x = false) :
    spanUntil p s = (s, []) := by
  induction s with
  | nil => rfl
  | cons x xs ih =>
    have hx := h x (List.mem_cons_self x xs)
    simp [spanUntil, hx, ih (fun y hy => h y (List.mem_cons_of_mem x hy))]

theorem spanUntil_append (p : Char → Bool) (s : Str) (c : Char) (t : Str)
    (h : ∀ x ∈ s, p x = false) (hc : p c = true) :
    spanUntil p (s ++ c :: t) = (s, c :: t) := by
  induction s with
  | nil => simp [spanUntil, hc]
  | cons x xs ih =>
    have hx := h x (List.mem_cons_self x xs)
    simp [spanUntil, hx, ih (fun y hy => h y (List.mem_cons_of_mem x hy))]

theorem splitOnChar_of_not_mem (c : Char) (s : Str) (h : c ∉ s) :
    splitOnChar c s = [s] := by
  induction s with
  | nil => rfl
  | cons x xs ih =>
    simp only [List.mem_cons, not_or] at h
    simp [splitOnChar, Ne.symm h.1, ih h.2]

theorem splitOnChar_append (c : Char) (s t : Str) (h : c ∉ s) :
    splitOnChar c (s ++ c :: t) = s :: splitOnChar c t := by
  induction s with
  | nil => simp [splitOnChar]
  | cons x xs ih =>
    simp only [List.mem_cons, not_or] at h
    have ih2 : splitOnChar c (xs.append (c :: t)) = xs :: splitOnChar c t := ih h.2
    simp only [List.cons_append, splitOnChar, if_neg (Ne.symm h.1), ih2]

/-! ### Query-string lemmas -/

theorem not_mem_joinQuery (c : Char) (kvs : List (Str × Str))
    (hc1 : c ≠ '=') (hc2 : c ≠ '&')
    (h : ∀ p ∈ kvs, c ∉ p.1 ∧ c ∉ p.2) : c ∉ joinQuery kvs := by
  induction kvs with
  | nil => simp [joinQuery]
  | cons hd tl ih =>
    obtain ⟨k, v⟩ := hd
    have hk := (h (k, v) (List.mem_cons_self _ _)).1
    have hv := (h (k, v) (List.mem_cons_self _ _)).2
    cases tl with
    | nil => simp [joinQuery, hk, hv, hc1]
    | cons p tl' =>
      have ih' := ih (fun q hq => h q (List.mem_cons_of_mem _ hq))
      simp [joinQuery, hk, hv, hc1, hc2, ih']

theorem queryPairs_joinQuery (kvs : List (Str × Str))
    (h : ∀ p ∈ kvs, '&' ∉ p.1 ∧ '=' ∉ p.1 ∧ '&' ∉ p.2) :
    queryPairs (joinQuery kvs) =
      kvs.map (fun p => (formDecode p.1, formDecode p.2)) := by
  induction kvs with
  | nil => rfl
  | cons hd tl ih =>
    obtain ⟨k, v⟩ := hd
    have hk1 := (h (k, v) (List.mem_cons_self _ _)).1
    have hk2 := (h (k, v) (List.mem_cons_self _ _)).2.1
    have hv1 := (h (k, v) (List.mem_cons_self _ _)).2.2
    have hsep : '&' ∉ k ++ '=' :: v := by
      simp [List.mem_append, hk1, hv1]
    have hpair : parsePair (k ++ '=' :: v) = some (formDecode k, formDecode v) := by
      have hne : k ++ '=' :: v ≠ [] := by simp
      simp [parsePair, hne, splitFirst_append '=' k v hk2]
    cases tl with
    | nil =>
      simp only [joinQuery, queryPairs, splitOnChar_of_not_mem '&' _ hsep]
      simp [hpair]
    | cons p tl' =>
      have ih' := ih (fun q hq => h q (List.mem_cons_of_mem _ hq))
      have hassoc : k ++ '=' :: (v ++ '&' :: joinQuery (p :: tl'))
          = (k ++ '=' :: v) ++ '&' :: joinQuery (p :: tl') := by
        simp
      simp only [joinQuery, queryPairs, hassoc,
        splitOnChar_append '&' _ _ hsep, List.filterMap_cons, hpair]
      simp only [queryPairs] at ih'
      simp [ih']

/-! ### Parsing the callback URL -/

theorem urlParse_callback (Q : Str) (hQ : '#' ∉ Q) :
    urlParse (str "addie://auth/callback?" ++ Q) =
      .ok ⟨str "addie", some (str "auth"), str "/callback", some Q⟩ := by
  have e1 : str "addie://auth/callback?" ++ Q
      = str "addie" ++ ':' :: ('/' :: '/' :: (str "auth" ++ '/' :: (str "callback?" ++ Q))) := rfl
  have h1 : splitFirst ':' (str "addie://auth/callback?" ++ Q)
      = some (str "addie", '/' :: '/' :: (str "auth" ++ '/' :: (str "callback?" ++ Q))) := by
    rw [e1]; exact splitFirst_append ':' (str "addie") _ (by decide)
  have h2 : spanUntil (fun c => c = '/' || c = '?' || c = '#')
      (str "auth" ++ '/' :: (str "callback?" ++ Q))
      = (str "auth", '/' :: (str "callback?" ++ Q)) :=
    spanUntil_append _ (str "auth") '/' _ (by decide) (by decide)
  have e3 : '/' :: (str "callback?" ++ Q) = str "/callback" ++ '?' :: Q := rfl
  have h3 : spanUntil (fun c => c = '?' || c = '#') (str "/callback" ++ '?' :: Q)
      = (str "/callback", '?' :: Q) :=
    spanUntil_append _ (str "/callback") '?' Q (by decide) (by decide)
  have h4 : spanUntil (fun c => c = '#') Q = (Q, []) := by
    refine spanUntil_of_not _ Q (fun x hx => ?_)
    simp only [decide_eq_false_iff_not]
    intro hc; exact hQ (hc ▸ hx)
  have h5 : queryOf ('?' :: Q) = some Q := by
    simp [queryOf, h4]
  rw [urlParse, h1]
  simp only [if_pos (show schemeOk (str "addie") = true by decide)]
  rw [show spanUntil (fun c => c = '/' || c = '?' || c = '#')
      (str "auth" ++ '/' :: (str "callback?" ++ Q))
      = (str "auth", '/' :: (str "callback?" ++ Q)) from h2]
  rw [show splitFirst ':' (str "auth") = none from by decide]
  rw [e3, h3, h5]
  rfl

/-- Reduction of `handle_deep_link` when URL parsing succeeds. -/
theorem handle_deep_link_of_parse_ok (u : Str) (p : ParsedUrl) (w : World)
    (h : urlParse u = .ok p) :
    handle_deep_link u w = handleDeepLinkParsed p w := by
  unfold handle_deep_link; rw [h]

/-- Reduction of `handle_deep_link` when URL parsing fails. -/
theorem handle_deep_link_of_parse_error (u : Str) (e : Str) (w : World)
    (h : urlParse u = .error e) :
    handle_deep_link u w = ⟨w, [], .error e⟩ := by
  unfold handle_deep_link; rw [h]

/-- On the auth-callback URL shape, the handler is the parameter
processing of the raw query. -/
theorem handleDeepLinkParsed_callback (Q : Str) (w : World) :
    handleDeepLinkParsed ⟨str "addie", some (str "auth"), str "/callback", some Q⟩ w
      = handleCallbackParams (queryPairs Q) w := rfl

/-- C1: a callback URL `addie://auth/callback?sealed_session=..&user_id=..
&email=..` (optionally with `first_name` and `last_name`) is parsed by
`handle_deep_link` into a `UserSession` whose fields are the URL-decoded
parameter values, absent optional parameters giving absent fields; the
session is saved and `auth-success` is emitted. -/
theorem c1_callback_roundtrip (es eu ee : Str) (fn ln : Option Str) (w : World)
    (hw : w.writeError = none)
    (hes : tokOk es) (heu : tokOk eu) (hee : tokOk ee)
    (hfn : optTokOk fn) (hln : optTokOk ln) :
    handle_deep_link (callbackUrl es eu ee fn ln) w =
      ⟨{ w with file := some (sessionToJson
          ⟨formDecode es, formDecode eu, formDecode ee,
           fn.map formDecode, ln.map formDecode⟩) },
       [.authSuccess (successPayload (formDecode eu) (formDecode ee)
          (fn.map formDecode) (ln.map formDecode))],
       .ok ()⟩ := by
  obtain ⟨wfile, wkey, wwe, wre, wrm, wko⟩ := w
  simp only at hw
  subst hw
  unfold callbackUrl
  rcases fn with _ | f <;> rcases ln with _ | l
  · rw [show callbackPairs es eu ee none none
        = [(str "sealed_session", es), (str "user_id", eu), (str "email", ee)]
      from rfl]
    have hgood : ∀ p ∈ [(str "sealed_session", es), (str "user_id", eu),
        (str "email", ee)], '&' ∉ p.1 ∧ '=' ∉ p.1 ∧ '&' ∉ p.2 := by
      intro p hp
      simp only [List.mem_cons, List.not_mem_nil, or_false] at hp
      rcases hp with rfl | rfl | rfl
      · exact ⟨show '&' ∉ str "sealed_session" by decide, show '=' ∉ str "sealed_session" by decide, hes.1⟩
      · exact ⟨show '&' ∉ str "user_id" by decide, show '=' ∉ str "user_id" by decide, heu.1⟩
      · exact ⟨show '&' ∉ str "email" by decide, show '=' ∉ str "email" by decide, hee.1⟩
    have hmem : ∀ p ∈ [(str "sealed_session", es), (str "user_id", eu),
        (str "email", ee)], '#' ∉ p.1 ∧ '#' ∉ p.2 := by
      intro p hp
      simp only [List.mem_cons, List.not_mem_nil, or_false] at hp
      rcases hp with rfl | rfl | rfl
      · exact ⟨show '#' ∉ str "sealed_session" by decide, hes.2.1⟩
      · exact ⟨show '#' ∉ str "user_id" by decide, heu.2.1⟩
      · exact ⟨show '#' ∉ str "email" by decide, hee.2.1⟩
    have hQ := not_mem_joinQuery '#' _ (by decide) (by decide) hmem
    rw [handle_deep_link_of_parse_ok _ _ _ (urlParse_callback _ hQ),
      handleDeepLinkParsed_callback,
      queryPairs_joinQuery _ hgood]
    rfl
  · rw [show callbackPairs es eu ee none (some l)
        = [(str "sealed_session", es), (str "user_id", eu), (str "email", ee),
           (str "last_name", l)]
      from rfl]
    have hgood : ∀ p ∈ [(str "sealed_session", es), (str "user_id", eu),
        (str "email", ee), (str "last_name", l)],
        '&' ∉ p.1 ∧ '=' ∉ p.1 ∧ '&' ∉ p.2 := by
      intro p hp
      simp only [List.mem_cons, List.not_mem_nil, or_false] at hp
      rcases hp with rfl | rfl | rfl | rfl
      · exact ⟨show '&' ∉ str "sealed_session" by decide, show '=' ∉ str "sealed_session" by decide, hes.1⟩
      · exact ⟨show '&' ∉ str "user_id" by decide, show '=' ∉ str "user_id" by decide, heu.1⟩
      · exact ⟨show '&' ∉ str "email" by decide, show '=' ∉ str "email" by decide, hee.1⟩
      · exact ⟨show '&' ∉ str "last_name" by decide, show '=' ∉ str "last_name" by decide, hln.1⟩
    have hmem : ∀ p ∈ [(str "sealed_session", es), (str "user_id", eu),
        (str "email", ee), (str "last_name", l)], '#' ∉ p.1 ∧ '#' ∉ p.2 := by
      intro p hp
      simp only [List.mem_cons, List.not_mem_nil, or_false] at hp
      rcases hp with rfl | rfl | rfl | rfl
      · exact ⟨show '#' ∉ str "sealed_session" by decide, hes.2.1⟩
      · exact ⟨show '#' ∉ str "user_id" by decide, heu.2.1⟩
      · exact ⟨show '#' ∉ str "email" by decide, hee.2.1⟩
      · exact ⟨show '#' ∉ str "last_name" by decide, hln.2.1⟩
    have hQ := not_mem_joinQuery '#' _ (by decide) (by decide) hmem
    rw [handle_deep_link_of_parse_ok _ _ _ (urlParse_callback _ hQ),
      handleDeepLinkParsed_callback,
      queryPairs_joinQuery _ hgood]
    rfl
  · rw [show callbackPairs es eu ee (some f) none
        = [(str "sealed_session", es), (str "user_id", eu), (str "email", ee),
           (str "first_name", f)]
      from rfl]
    have hgood : ∀ p ∈ [(str "sealed_session", es), (str "user_id", eu),
        (str "email", ee), (str "first_name", f)],
        '&' ∉ p.1 ∧ '=' ∉ p.1 ∧ '&' ∉ p.2 := by
      intro p hp
      simp only [List.mem_cons, List.not_mem_nil, or_false] at hp
      rcases hp with rfl | rfl | rfl | rfl
      · exact ⟨show '&' ∉ str "sealed_session" by decide, show '=' ∉ str "sealed_session" by decide, hes.1⟩
      · exact ⟨show '&' ∉ str "user_id" by decide, show '=' ∉ str "user_id" by decide, heu.1⟩
      · exact ⟨show '&' ∉ str "email" by decide, show '=' ∉ str "email" by decide, hee.1⟩
      · exact ⟨show '&' ∉ str "first_name" by decide, show '=' ∉ str "first_name" by decide, hfn.1⟩
    have hmem : ∀ p ∈ [(str "sealed_session", es), (str "user_id", eu),
        (str "email", ee), (str "first_name", f)], '#' ∉ p.1 ∧ '#' ∉ p.2 := by
      intro p hp
      simp only [List.mem_cons, List.not_mem_nil, or_false] at hp
      rcases hp with rfl | rfl | rfl | rfl
      · exact ⟨show '#' ∉ str "sealed_session" by decide, hes.2.1⟩
      · exact ⟨show '#' ∉ str "user_id" by decide, heu.2.1⟩
      · exact ⟨show '#' ∉ str "email" by decide, hee.2.1⟩
      · exact ⟨show '#' ∉ str "first_name" by decide, hfn.2.1⟩
    have hQ := not_mem_joinQuery '#' _ (by decide) (by decide) hmem
    rw [handle_deep_link_of_parse_ok _ _ _ (urlParse_callback _ hQ),
      handleDeepLinkParsed_callback,
      queryPairs_joinQuery _ hgood]
    rfl
  · rw [show callbackPairs es eu ee (some f) (some l)
        = [(str "sealed_session", es), (str "user_id", eu), (str "email", ee),
           (str "first_name", f), (str "last_name", l)]
      from rfl]
    have hgood : ∀ p ∈ [(str "sealed_session", es), (str "user_id", eu),
        (str "email", ee), (str "first_name", f), (str "last_name", l)],
        '&' ∉ p.1 ∧ '=' ∉ p.1 ∧ '&' ∉ p.2 := by
      intro p hp
      simp only [List.mem_cons, List.not_mem_nil, or_false] at hp
      rcases hp with rfl | rfl | rfl | rfl | rfl
      · exact ⟨show '&' ∉ str "sealed_session" by decide, show '=' ∉ str "sealed_session" by decide, hes.1⟩
      · exact ⟨show '&' ∉ str "user_id" by decide, show '=' ∉ str "user_id" by decide, heu.1⟩
      · exact ⟨show '&' ∉ str "email" by decide, show '=' ∉ str "email" by decide, hee.1⟩
      · exact ⟨show '&' ∉ str "first_name" by decide, show '=' ∉ str "first_name" by decide, hfn.1⟩
      · exact ⟨show '&' ∉ str "last_name" by decide, show '=' ∉ str "last_name" by decide, hln.1⟩
    have hmem : ∀ p ∈ [(str "sealed_session", es), (str "user_id", eu),
        (str "email", ee), (str "first_name", f), (str "last_name", l)],
        '#' ∉ p.1 ∧ '#' ∉ p.2 := by
      intro p hp
      simp only [List.mem_cons, List.not_mem_nil, or_false] at hp
      rcases hp with rfl | rfl | rfl | rfl | rfl
      · exact ⟨show '#' ∉ str "sealed_session" by decide, hes.2.1⟩
      · exact ⟨show '#' ∉ str "user_id" by decide, heu.2.1⟩
      · exact ⟨show '#' ∉ str "email" by decide, hee.2.1⟩
      · exact ⟨show '#' ∉ str "first_name" by decide, hfn.2.1⟩
      · exact ⟨show '#' ∉ str "last_name" by decide, hln.2.1⟩
    have hQ := not_mem_joinQuery '#' _ (by decide) (by decide) hmem
    rw [handle_deep_link_of_parse_ok _ _ _ (urlParse_callback _ hQ),
      handleDeepLinkParsed_callback,
      queryPairs_joinQuery _ hgood]
    rfl

/-- C2: on a URL with scheme `addie`, host `auth` and path `/callback`
whose query lacks one of the required parameters, `handle_deep_link`
returns an error naming a missing parameter and leaves the world
untouched, with no events emitted. -/
theorem c2_missing_param_error (url : Str) (p : ParsedUrl) (w : World)
    (hp : urlParse url = .ok p)
    (hs : p.scheme = str "addie") (hh : p.host = some (str "auth"))
    (hpath : p.path = str "/callback")
    (hmiss : getParam (queryPairs (p.query.getD [])) (str "sealed_session") = none
      ∨ getParam (queryPairs (p.query.getD [])) (str "user_id") = none
      ∨ getParam (queryPairs (p.query.getD [])) (str "email") = none) :
    ∃ m, (m = str "sealed_session" ∨ m = str "user_id" ∨ m = str "email")
      ∧ getParam (queryPairs (p.query.getD [])) m = none
      ∧ handle_deep_link url w = ⟨w, [], .error (str "Missing " ++ m)⟩ := by
  rw [handle_deep_link_of_parse_ok _ _ _ hp]
  unfold handleDeepLinkParsed
  rw [if_neg (by simp [hs, hh]), if_neg (by simp [hpath])]
  cases hss : getParam (queryPairs (p.query.getD [])) (str "sealed_session") with
  | none =>
    refine ⟨str "sealed_session", Or.inl rfl, hss, ?_⟩
    unfold handleCallbackParams
    rw [hss]; rfl
  | some ss =>
    cases huid : getParam (queryPairs (p.query.getD [])) (str "user_id") with
    | none =>
      refine ⟨str "user_id", Or.inr (Or.inl rfl), huid, ?_⟩
      unfold handleCallbackParams
      rw [hss, huid]; rfl
    | some uid =>
      cases hem : getParam (queryPairs (p.query.getD [])) (str "email") with
      | none =>
        refine ⟨str "email", Or.inr (Or.inr rfl), hem, ?_⟩
        unfold handleCallbackParams
        rw [hss, huid, hem]; rfl
      | some em =>
        rcases hmiss with h | h | h
        · rw [hss] at h; cases h
        · rw [huid] at h; cases h
        · rw [hem] at h; cases h

theorem c2_missing_param_error_witness :
    ∃ m, (m = str "sealed_session" ∨ m = str "user_id" ∨ m = str "email")
      ∧ getParam (queryPairs (str "user_id=u&email=e")) m = none
      ∧ handle_deep_link (str "addie://auth/callback?user_id=u&email=e")
          ⟨none, none, none, none, none, true⟩
        = ⟨⟨none, none, none, none, none, true⟩, [], .error (str "Missing " ++ m)⟩ :=
  c2_missing_param_error (str "addie://auth/callback?user_id=u&email=e")
    ⟨str "addie", some (str "auth"), str "/callback", some (str "user_id=u&email=e")⟩
    ⟨none, none, none, none, none, true⟩ rfl rfl rfl rfl (Or.inl rfl)

/-- C3: a well-formed URL whose scheme is not `addie`, or host not
`auth`, or path not `/callback`, is ignored: `handle_deep_link` returns
`Ok` with no state change and no events. -/
theorem c3_irrelevant_url_ignored (url : Str) (p : ParsedUrl) (w : World)
    (hp : urlParse url = .ok p)
    (h : p.scheme ≠ str "addie" ∨ p.host ≠ some (str "auth")
      ∨ p.path ≠ str "/callback") :
    handle_deep_link url w = ⟨w, [], .ok ()⟩ := by
  rw [handle_deep_link_of_parse_ok _ _ _ hp]
  unfold handleDeepLinkParsed
  rcases h with h | h | h
  · rw [if_pos (Or.inl h)]
  · rw [if_pos (Or.inr h)]
  · by_cases h1 : p.scheme ≠ str "addie" ∨ p.host ≠ some (str "auth")
    · rw [if_pos h1]
    · rw [if_neg h1, if_pos h]

theorem c3_irrelevant_url_ignored_witness :
    handle_deep_link (str "https://example.com/") ⟨none, none, none, none, none, true⟩
      = ⟨⟨none, none, none, none, none, true⟩, [], .ok ()⟩ :=
  c3_irrelevant_url_ignored (str "https://example.com/")
    ⟨str "https", some (str "example.com"), str "/", none⟩
    ⟨none, none, none, none, none, true⟩ rfl (Or.inl (by decide))

/-- C9: on a valid callback URL with all required parameters, when the
session write fails with an error, `handle_deep_link` emits the
`auth-error` event and propagates the failure as an error, leaving the
world unchanged. -/
theorem c9_save_failure_notifies (url : Str) (p : ParsedUrl) (w : World)
    (e ss uid em : Str)
    (hp : urlParse url = .ok p)
    (hs : p.scheme = str "addie") (hh : p.host = some (str "auth"))
    (hpath : p.path = str "/callback")
    (hss : getParam (queryPairs (p.query.getD [])) (str "sealed_session") = some ss)
    (huid : getParam (queryPairs (p.query.getD [])) (str "user_id") = some uid)
    (hem : getParam (queryPairs (p.query.getD [])) (str "email") = some em)
    (hw : w.writeError = some e) :
    handle_deep_link url w =
      ⟨w, [.authError (str "Failed to save session: " ++ e)],
        .error (str "Failed to save session: " ++ e)⟩ := by
  rw [handle_deep_link_of_parse_ok _ _ _ hp]
  unfold handleDeepLinkParsed
  rw [if_neg (by simp [hs, hh]), if_neg (by simp [hpath])]
  unfold handleCallbackParams
  rw [hss, huid, hem]
  unfold save_session
  rw [hw]

theorem c9_save_failure_notifies_witness :
    handle_deep_link (str "addie://auth/callback?sealed_session=s&user_id=u&email=e")
        ⟨none, none, some (str "disk full"), none, none, true⟩
      = ⟨⟨none, none, some (str "disk full"), none, none, true⟩,
         [.authError (str "Failed to save session: disk full")],
         .error (str "Failed to save session: disk full")⟩ := by
  have h := c9_save_failure_notifies
    (str "addie://auth/callback?sealed_session=s&user_id=u&email=e")
    ⟨str "addie", some (str "auth"), str "/callback",
      some (str "sealed_session=s&user_id=u&email=e")⟩
    ⟨none, none, some (str "disk full"), none, none, true⟩
    (str "disk full") (str "s") (str "u") (str "e")
    rfl rfl rfl rfl rfl rfl rfl rfl
  exact h

/-- C4 counterexample: on a malformed input, `handle_deep_link` does NOT
return successfully — it surfaces the URL parse error to the caller
(the claim that it returns `Ok` is false at this input). -/
theorem c4_counterexample_not_ok :
    (handle_deep_link (str "not a url") ⟨none, none, none, none, none, true⟩).result
      = .error (str "relative URL without a base") := rfl

/-- C4 (amended): on an input that fails URL parsing,
`handle_deep_link` returns the parse error to its caller, with no state
change and no events; the callers in `lib.rs` merely log it. -/
theorem c4_parse_error_propagated (url e : Str) (w : World)
    (h : urlParse url = .error e) :
    handle_deep_link url w = ⟨w, [], .error e⟩ := by
  unfold handle_deep_link
  rw [h]

theorem c4_parse_error_propagated_witness :
    handle_deep_link (str "not a url") ⟨none, none, none, none, none, true⟩
      = ⟨⟨none, none, none, none, none, true⟩, [],
         .error (str "relative URL without a base")⟩ :=
  c4_parse_error_propagated (str "not a url")
    (str "relative URL without a base") ⟨none, none, none, none, none, true⟩ rfl

/-- Serialising a session and deserialising the result gives the session
back (the derived serde mapping is left-invertible). -/
theorem sessionFromJson_sessionToJson (s : UserSession) :
    sessionFromJson (sessionToJson s) = some s := by
  obtain ⟨a, b, c, fn, ln⟩ := s
  rcases fn with _ | f <;> rcases ln with _ | l <;> rfl

/-- C5: saving any session (optional fields present or absent) and
loading it back returns the identical record. -/
theorem c5_save_get_roundtrip (s : UserSession) (w : World)
    (hw : w.writeError = none) (hr : w.readError = none) :
    save_session s w = .ok { w with file := some (sessionToJson s) }
    ∧ get_session { w with file := some (sessionToJson s) } = .ok (some s) := by
  obtain ⟨wf, wk, wwe, wre, wrm, wko⟩ := w
  simp only at hw hr
  subst hw; subst hr
  refine ⟨rfl, ?_⟩
  unfold get_session
  simp only
  rw [sessionFromJson_sessionToJson]

theorem c5_save_get_roundtrip_witness :
    save_session ⟨str "tok", str "u1", str "a@b", none, some (str "Lee")⟩
        ⟨none, none, none, none, none, true⟩
      = .ok ⟨some (sessionToJson ⟨str "tok", str "u1", str "a@b", none, some (str "Lee")⟩),
          none, none, none, none, true⟩
    ∧ get_session ⟨some (sessionToJson ⟨str "tok", str "u1", str "a@b", none, some (str "Lee")⟩),
          none, none, none, none, true⟩
      = .ok (some ⟨str "tok", str "u1", str "a@b", none, some (str "Lee")⟩) :=
  c5_save_get_roundtrip ⟨str "tok", str "u1", str "a@b", none, some (str "Lee")⟩
    ⟨none, none, none, none, none, true⟩ rfl rfl

/-- C6: after a successful `clear_session`, `get_session` reports the
absent-session state. -/
theorem c6_clear_then_get_none (w w' : World)
    (h : clear_session w = .ok w') :
    get_session w' = .ok none := by
  obtain ⟨wf, wk, wwe, wre, wrm, wko⟩ := w
  cases wko <;> cases wf <;> cases wrm <;>
    simp only [clear_session, Bool.false_eq_true, if_false, if_true,
      Except.ok.injEq] at h <;>
    first
      | (subst h; rfl)
      | cases h

theorem c6_clear_then_get_none_witness :
    get_session ⟨none, none, none, none, none, true⟩ = .ok none :=
  c6_clear_then_get_none ⟨some Json.null, some (str "cred"), none, none, none, true⟩
    ⟨none, none, none, none, none, true⟩ rfl

/-- C10: deleting an absent session succeeds, and a successful
`clear_session` is idempotent: running it again succeeds and changes
nothing. -/
theorem c10_clear_session_idempotent (w : World) :
    (w.file = none → ∃ w1, clear_session w = .ok w1)
    ∧ ∀ w', clear_session w = .ok w' → clear_session w' = .ok w' := by
  obtain ⟨wf, wk, wwe, wre, wrm, wko⟩ := w
  constructor
  · intro h
    simp only at h
    subst h
    cases wko
    · exact ⟨_, rfl⟩
    · exact ⟨_, rfl⟩
  · intro w' h
    cases wko <;> cases wf <;> cases wrm <;>
      simp only [clear_session, Bool.false_eq_true, if_false, if_true,
        Except.ok.injEq] at h <;>
      first
        | (subst h; rfl)
        | cases h

theorem c10_clear_session_idempotent_witness :
    (∃ w1, clear_session ⟨none, none, none, none, none, true⟩ = .ok w1)
    ∧ clear_session ⟨none, some (str "cred"), none, none, none, false⟩
        = .ok ⟨none, some (str "cred"), none, none, none, false⟩ :=
  ⟨(c10_clear_session_idempotent ⟨none, none, none, none, none, true⟩).1 rfl,
   (c10_clear_session_idempotent ⟨some Json.null, some (str "cred"), none, none, none, false⟩).2
     ⟨none, some (str "cred"), none, none, none, false⟩ rfl⟩

/-- C7: `start_oauth_flow` opens exactly
`<api_base>/auth/login?native=true&redirect_uri=<encoded addie://auth/callback>`,
where the base is `ADDIE_API_URL` when set and the production origin
otherwise, and the encoded redirect URI is `addie%3A%2F%2Fauth%2Fcallback`. -/
theorem c7_login_url (env : Option Str) (b : Str) :
    start_oauth_flow env
      = get_api_base_url env ++ str "/auth/login?native=true&redirect_uri="
          ++ urlencodingEncode (str "addie://auth/callback")
    ∧ start_oauth_flow none
      = str "https://agenticadvertising.org/auth/login?native=true&redirect_uri=addie%3A%2F%2Fauth%2Fcallback"
    ∧ start_oauth_flow (some b)
      = b ++ str "/auth/login?native=true&redirect_uri=addie%3A%2F%2Fauth%2Fcallback"
    ∧ urlencodingEncode (str "addie://auth/callback")
      = str "addie%3A%2F%2Fauth%2Fcallback" := by
  refine ⟨rfl, rfl, ?_, by decide⟩
  show (b ++ str "/auth/login?native=true&redirect_uri=")
      ++ urlencodingEncode (str "addie://auth/callback")
    = b ++ str "/auth/login?native=true&redirect_uri=addie%3A%2F%2Fauth%2Fcallback"
  rw [List.append_assoc]
  congr 1

/-- C8 counterexample: `save_session` writes the session only to the
session file — the keyring entry stays absent, so the credential store is
not the primary persistence and the file is not a mere fallback. -/
theorem c8_counterexample_file_not_keyring :
    save_session ⟨str "t", str "u", str "e", none, none⟩
        ⟨none, none, none, none, none, true⟩
      = .ok ⟨some (sessionToJson ⟨str "t", str "u", str "e", none, none⟩),
          none, none, none, none, true⟩ := rfl

/-- C8 (amended): `save_session` persists the JSON-encoded session in the
home-directory dotfile only, leaving the keyring untouched (the fixed
keyring service/account pair is used only by `clear_session`). -/
theorem c8_save_writes_file_only (s : UserSession) (w : World)
    (hw : w.writeError = none) :
    save_session s w = .ok { w with file := some (sessionToJson s) } := by
  obtain ⟨wf, wk, wwe, wre, wrm, wko⟩ := w
  simp only at hw
  subst hw
  rfl

theorem c8_save_writes_file_only_witness :
    save_session ⟨str "t2", str "u2", str "e2", some (str "A"), none⟩
        ⟨some Json.null, some (str "old"), none, none, none, false⟩
      = .ok ⟨some (sessionToJson ⟨str "t2", str "u2", str "e2", some (str "A"), none⟩),
          some (str "old"), none, none, none, false⟩ :=
  c8_save_writes_file_only ⟨str "t2", str "u2", str "e2", some (str "A"), none⟩
    ⟨some Json.null, some (str "old"), none, none, none, false⟩ rfl

theorem c1_callback_roundtrip_witness :
    tokOk (str "tok%20a")
    ∧ handle_deep_link
        (callbackUrl (str "tok%20a") (str "u1") (str "e%40x") (some (str "Ann")) none)
        ⟨none, none, none, none, none, true⟩
      = ⟨⟨some (sessionToJson ⟨str "tok a", str "u1", str "e@x", some (str "Ann"), none⟩),
          none, none, none, none, true⟩,
         [.authSuccess (successPayload (str "u1") (str "e@x") (some (str "Ann")) none)],
         .ok ()⟩ :=
  ⟨⟨by decide, by decide, by decide⟩,
   c1_callback_roundtrip (str "tok%20a") (str "u1") (str "e%40x")
     (some (str "Ann")) none ⟨none, none, none, none, none, true⟩ rfl
     ⟨by decide, by decide, by decide⟩ ⟨by decide, by decide, by decide⟩
     ⟨by decide, by decide, by decide⟩ ⟨by decide, by decide, by decide⟩
     True.intro⟩
